import Mathlib

/-!
# Database secrets engine: renewal and revocation of issued credentials

A shallow embedding of `builtin/logical/database/secret_creds.go`.  The two
handlers `secretCredsRenew` and `secretCredsRevoke` are sequential programs
over external collaborators (role storage, lease extension, the connection
registry, the database plugin).  The collaborators are fields of
`databaseBackend`; each one is a transition on a world state `σ`, so that a
database account removed by one call is seen as removed by the next.  Every
call a handler makes is also appended to a list of `Effect`s, in program order.
-/

namespace Database

/-! ## Data model -/

/-- A Go `interface{}` value as found in a lease's internal data bag. -/
inductive Value where
  | nil
  | bool (b : Bool)
  | num (n : Int)
  | str (s : String)
  deriving DecidableEq, Repr

/-- Go `time.Duration`, in nanoseconds. -/
abbrev Duration := Int

/-- Go `time.Time` as nanoseconds counted from the zero instant. -/
abbrev Time := Int

/-- Go `Time.IsZero`. -/
def Time.IsZero (t : Time) : Bool := t == 0

/-- A Go `error` value: either built by `fmt.Errorf` at a site of this file
(format string and arguments, a `none` argument being Go `nil`), or an error
produced by a collaborator. -/
inductive Err where
  | errorf (format : String) (args : List (Option Value))
  | other (msg : String)
  deriving DecidableEq, Repr

/-- Modelled from the spec: the type `dbplugin.Statements` is not in src; the
spec describes it as a set of statement templates, one for renewal and one for
revocation. -/
structure Statements where
  Renewal : String
  Revocation : String
  deriving DecidableEq, Repr

/-- The fields of a role entry that the handlers read. -/
structure roleEntry where
  DBName : String
  Statements : Statements
  DefaultTTL : Duration
  MaxTTL : Duration
  deriving DecidableEq, Repr

/-- Modelled from the spec: the type `logical.Secret` and its method
`ExpirationTime` are not in src.  The lease carries its internal data bag, the
optional requested extension, and the expiration time, which the spec
describes as a single point in time computed by the lease-extension policy. -/
structure Secret where
  InternalData : List (String × Value)
  Increment : Option Duration
  ExpireTime : Time
  deriving DecidableEq, Repr

/-- Modelled from the spec: `ExpirationTime` of `logical.Secret` (not in src)
reads the expiration carried by the lease. -/
def Secret.ExpirationTime (s : Secret) : Time := s.ExpireTime

/-- A `logical.Request` as far as the handlers read it: the lease under
renewal or revocation. -/
structure Request where
  Secret : Secret
  deriving DecidableEq, Repr

/-- A `logical.Response` as far as the handlers read it. -/
structure Response where
  Secret : Secret
  deriving DecidableEq, Repr

/-- A connection handle, as returned by `GetConnection`. -/
structure Conn where
  id : Nat
  deriving DecidableEq, Repr

/-- One call made by a handler.  `getConnection` also records the handle the
registry returned, `none` when it returned an error. -/
inductive Effect where
  | role (name : String)
  | leaseExtend (backendIncrement backendMax : Duration)
  | getConnection (dbName : String) (db : Option Conn)
  | rlock (db : Conn)
  | runlock (db : Conn)
  | renewUser (db : Conn) (statements : Statements) (username : String) (expireTime : Time)
  | revokeUser (db : Conn) (statements : Statements) (username : String)
  | closeIfShutdown (db : Conn) (err : Err)
  deriving DecidableEq, Repr

/-- How an invocation ends: the Go pair `(resp, err)`, or a run-time panic. -/
inductive Outcome where
  | returned (resp : Option Response) (err : Option Err)
  | panicked
  deriving DecidableEq, Repr

/-- The collaborators of the handlers.  A Go result pair `(v, err)` is an
`Except`; `Role` may also return `(nil, nil)`, which is `.ok none`. -/
structure databaseBackend (σ : Type) where
  Role : String → σ → Except Err (Option roleEntry) × σ
  LeaseExtend : Duration → Duration → Request → σ → Except Err Response × σ
  GetConnection : String → σ → Except Err Conn × σ
  RenewUser : Conn → Statements → String → Time → σ → Option Err × σ
  RevokeUser : Conn → Statements → String → σ → Option Err × σ
  CloseIfShutdown : Conn → Err → σ → σ

/-- The result of running a handler: the calls it made, in order, the world
state it left, and how it ended. -/
structure Run (σ : Type) where
  effects : List Effect
  state : σ
  outcome : Outcome

/-- Go `v, ok := x.(string)` with `ok` discarded: the string, or `""`. -/
def stringOrZero : Value → String
  | .str s => s
  | _ => ""

/-- Go `x.(string)`: `none` stands for the run-time panic. -/
def assertString : Value → Option String
  | .str s => some s
  | _ => none

/-! ## The handlers -/

/-- The closure returned by `secretCredsRenew` (lines 24-69). -/
def secretCredsRenew {σ : Type} (b : databaseBackend σ) (req : Request) (s : σ) : Run σ :=
  match req.Secret.InternalData.lookup "username" with
  | none =>
    ⟨[], s, .returned none (some (.errorf "secret is missing username internal data" []))⟩
  | some usernameRaw =>
    let username := stringOrZero usernameRaw
    match req.Secret.InternalData.lookup "role" with
    | none =>
      ⟨[], s, .returned none (some (.errorf "could not find role with name: %q"
        [req.Secret.InternalData.lookup "role"]))⟩
    | some roleNameRaw =>
      match assertString roleNameRaw with
      | none => ⟨[], s, .panicked⟩
      | some roleName =>
        match b.Role roleName s with
        | (.error err, s1) => ⟨[.role roleName], s1, .returned none (some err)⟩
        | (.ok none, s1) =>
          ⟨[.role roleName], s1, .returned none
            (some (.errorf "error during renew: could not find role with name %q"
              [req.Secret.InternalData.lookup "role"]))⟩
        | (.ok (some role), s1) =>
          match b.LeaseExtend role.DefaultTTL role.MaxTTL req s1 with
          | (.error err, s2) =>
            ⟨[.role roleName, .leaseExtend role.DefaultTTL role.MaxTTL], s2,
              .returned none (some err)⟩
          | (.ok resp, s2) =>
            match b.GetConnection role.DBName s2 with
            | (.error err, s3) =>
              ⟨[.role roleName, .leaseExtend role.DefaultTTL role.MaxTTL,
                .getConnection role.DBName none], s3, .returned none (some err)⟩
            | (.ok db, s3) =>
              let pre : List Effect :=
                [.role roleName, .leaseExtend role.DefaultTTL role.MaxTTL,
                  .getConnection role.DBName (some db), .rlock db]
              let expireTime := resp.Secret.ExpirationTime
              if !expireTime.IsZero then
                match b.RenewUser db role.Statements username expireTime s3 with
                | (some err, s4) =>
                  ⟨pre ++ [.renewUser db role.Statements username expireTime,
                      .closeIfShutdown db err, .runlock db],
                    b.CloseIfShutdown db err s4, .returned none (some err)⟩
                | (none, s4) =>
                  ⟨pre ++ [.renewUser db role.Statements username expireTime, .runlock db],
                    s4, .returned (some resp) none⟩
              else
                ⟨pre ++ [.runlock db], s3, .returned (some resp) none⟩

/-- The closure returned by `secretCredsRevoke` (lines 73-110). -/
def secretCredsRevoke {σ : Type} (b : databaseBackend σ) (req : Request) (s : σ) : Run σ :=
  match req.Secret.InternalData.lookup "username" with
  | none =>
    ⟨[], s, .returned none (some (.errorf "secret is missing username internal data" []))⟩
  | some usernameRaw =>
    let username := stringOrZero usernameRaw
    let resp : Option Response := none
    match req.Secret.InternalData.lookup "role" with
    | none => ⟨[], s, .returned none (some (.errorf "no role name was provided" []))⟩
    | some roleNameRaw =>
      match assertString roleNameRaw with
      | none => ⟨[], s, .panicked⟩
      | some roleName =>
        match b.Role roleName s with
        | (.error err, s1) => ⟨[.role roleName], s1, .returned none (some err)⟩
        | (.ok none, s1) =>
          ⟨[.role roleName], s1, .returned none
            (some (.errorf "error during revoke: could not find role with name %q"
              [req.Secret.InternalData.lookup "role"]))⟩
        | (.ok (some role), s1) =>
          match b.GetConnection role.DBName s1 with
          | (.error err, s2) =>
            ⟨[.role roleName, .getConnection role.DBName none], s2, .returned none (some err)⟩
          | (.ok db, s2) =>
            let pre : List Effect :=
              [.role roleName, .getConnection role.DBName (some db), .rlock db]
            match b.RevokeUser db role.Statements username s2 with
            | (some err, s3) =>
              ⟨pre ++ [.revokeUser db role.Statements username, .closeIfShutdown db err,
                  .runlock db],
                b.CloseIfShutdown db err s3, .returned none (some err)⟩
            | (none, s3) =>
              ⟨pre ++ [.revokeUser db role.Statements username, .runlock db], s3,
                .returned resp none⟩

/-! ## Derived notions used by the statements -/

/-- The number of shared holders of connection `c` after the lock calls of a
list of effects, starting from `n` holders. -/
def readers (c : Conn) : List Effect → Nat → Nat
  | [], n => n
  | .rlock d :: t, n => readers c t (if d = c then n + 1 else n)
  | .runlock d :: t, n => readers c t (if d = c then n - 1 else n)
  | _ :: t, n => readers c t n

/-- A lock call. -/
def Effect.isLock : Effect → Bool
  | .rlock _ => true
  | .runlock _ => true
  | _ => false

/-- A call that reaches the database through a connection: a statement or the
invalidation hook. -/
def Effect.isDatabase : Effect → Bool
  | .renewUser _ _ _ _ => true
  | .revokeUser _ _ _ => true
  | .closeIfShutdown _ _ => true
  | _ => false

/-- A statement execution. -/
def Effect.isStatement : Effect → Bool
  | .renewUser _ _ _ _ => true
  | .revokeUser _ _ _ => true
  | _ => false

/-- The shared-lock discipline on the effects of one invocation.  Either the
registry returned a handle `db`: the effects are `pre`, then the connection
lookup, `RLock` on `db`, the calls `mid`, and `RUnlock` on `db` last, with no
lock call and no database call in `pre` and no lock call in `mid`.  Or the
registry returned no handle: there is no lock call and no database call. -/
def LockDiscipline (t : List Effect) : Prop :=
  (∃ pre dbName db mid,
    t = pre ++ [.getConnection dbName (some db), .rlock db] ++ mid ++ [.runlock db] ∧
    (∀ e ∈ pre, e.isLock = false ∧ e.isDatabase = false ∧
      ∀ n d, e ≠ .getConnection n (some d)) ∧
    (∀ e ∈ mid, e.isLock = false)) ∨
  ((∀ n d, Effect.getConnection n (some d) ∉ t) ∧
    ∀ e ∈ t, e.isLock = false ∧ e.isDatabase = false)

/-! ## A concrete world for evaluation -/

/-- A small world: the accounts that exist in the database, and the clock. -/
structure World where
  users : List String
  now : Time
  deriving DecidableEq, Repr

/-- The role `app-role` of the sample backends. -/
def appRole : roleEntry :=
  { DBName := "db", Statements := ⟨"ALTER", "DROP"⟩, DefaultTTL := 3600, MaxTTL := 86400 }

/-- Modelled from the spec: `framework.LeaseExtend` is not in src.  The spec
gives the expiration as `min(now + requested, now + MaxTTL)`, bounded also by
`DefaultTTL` when no explicit request is given. -/
def extend (now : Time) (requested : Option Duration) (defaultTTL maxTTL : Duration) : Time :=
  match requested with
  | some r => min (now + r) (now + maxTTL)
  | none => min (now + defaultTTL) (now + maxTTL)

/-- Modelled from the spec: `framework.LeaseExtend` is not in src.  It answers
with the request's lease, its expiration set by `extend` at the time `now`. -/
def LeaseExtend (now : Time) (backendIncrement backendMax : Duration) (req : Request) :
    Except Err Response :=
  .ok { Secret := { req.Secret with
    ExpireTime := extend now req.Secret.Increment backendIncrement backendMax } }

/-- A backend whose `LeaseExtend` is the spec's policy, read at the clock
`clock` of the world. -/
def withLeaseExtend {σ : Type} (b : databaseBackend σ) (clock : σ → Time) : databaseBackend σ :=
  { b with LeaseExtend := fun d m req w => (LeaseExtend (clock w) d m req, w) }

/-- A backend with one role and one connection whose revocation statement
fails on an account that does not exist. -/
def strictBackend : databaseBackend World where
  Role := fun name w => (if name = "app-role" then .ok (some appRole) else .ok none, w)
  LeaseExtend := fun d m req w => (LeaseExtend w.now d m req, w)
  GetConnection := fun name w =>
    (if name = "db" then .ok ⟨1⟩ else .error (.other "unknown database"), w)
  RenewUser := fun _ _ username _ w =>
    (if username ∈ w.users then none else some (.other "user does not exist"), w)
  RevokeUser := fun _ _ username w =>
    if username ∈ w.users then (none, { w with users := w.users.erase username })
    else (some (.other "user does not exist"), w)
  CloseIfShutdown := fun _ _ w => w

/-- A world whose connection registry opens connections on first use: the
accounts that exist in the database, and the names of the open connections. -/
structure Registry where
  users : List String
  opened : List String
  deriving DecidableEq, Repr

/-- A backend whose connection lookup changes the world (it opens the
connection when it is not open yet) and whose revocation statement accepts an
account that is already gone. -/
def lazyBackend : databaseBackend Registry where
  Role := fun name w => (if name = "app-role" then .ok (some appRole) else .ok none, w)
  LeaseExtend := fun d m req w => (LeaseExtend 1000 d m req, w)
  GetConnection := fun name w =>
    if name = "db" then
      (.ok ⟨1⟩, if name ∈ w.opened then w else { w with opened := name :: w.opened })
    else (.error (.other "unknown database"), w)
  RenewUser := fun _ _ username _ w =>
    (if username ∈ w.users then none else some (.other "user does not exist"), w)
  RevokeUser := fun _ _ username w => (none, { w with users := w.users.erase username })
  CloseIfShutdown := fun _ _ w => { w with opened := [] }

/-- A lease issued for `app-role`. -/
def appLease : Request :=
  ⟨{ InternalData := [("username", .str "v-app-role-abcd"), ("role", .str "app-role")],
     Increment := none, ExpireTime := 0 }⟩

/-- A lease that carries a username but no role. -/
def roleLessLease : Request :=
  ⟨{ InternalData := [("username", .str "u")], Increment := none, ExpireTime := 0 }⟩

/-- A lease issued for a role that is no longer in storage. -/
def staleLease : Request :=
  ⟨{ InternalData := [("username", .str "v-old-abcd"), ("role", .str "old-role")],
     Increment := none, ExpireTime := 0 }⟩

/-- A lease whose `username` is a number. -/
def numberLease : Request :=
  ⟨{ InternalData := [("username", .num 7), ("role", .str "app-role")],
     Increment := none, ExpireTime := 0 }⟩

/-- A lease whose `role` is a number and that has no `username`. -/
def namelessLease : Request :=
  ⟨{ InternalData := [("role", .num 5)], Increment := none, ExpireTime := 0 }⟩

/-- A lease with a `username` whose `role` is a number. -/
def numberRoleLease : Request :=
  ⟨{ InternalData := [("username", .str "u"), ("role", .num 5)],
     Increment := none, ExpireTime := 0 }⟩

/-- A world in which the account of `appLease` exists. -/
def appWorld : World := { users := ["v-app-role-abcd"], now := 1000 }

/-! ## Missing attributes -/

/-- C1: when the internal data lacks `username` or lacks `role`, Renew and
Revoke both return a nil response and the missing-attribute error of the
failed check, make no call at all and leave the world unchanged. -/
theorem missing_attribute_no_call {σ : Type} (b : databaseBackend σ) (req : Request) (s : σ)
    (h : req.Secret.InternalData.lookup "username" = none ∨
      req.Secret.InternalData.lookup "role" = none) :
    ((secretCredsRenew b req s).outcome = .returned none (some
        (if (req.Secret.InternalData.lookup "username").isNone
          then .errorf "secret is missing username internal data" []
          else .errorf "could not find role with name: %q" [none])) ∧
      (secretCredsRenew b req s).effects = [] ∧ (secretCredsRenew b req s).state = s) ∧
    ((secretCredsRevoke b req s).outcome = .returned none (some
        (if (req.Secret.InternalData.lookup "username").isNone
          then .errorf "secret is missing username internal data" []
          else .errorf "no role name was provided" [])) ∧
      (secretCredsRevoke b req s).effects = [] ∧ (secretCredsRevoke b req s).state = s) := by
  unfold secretCredsRenew secretCredsRevoke
  cases hu : req.Secret.InternalData.lookup "username" with
  | none => simp
  | some u =>
    have hr : req.Secret.InternalData.lookup "role" = none := by
      rcases h with h | h
      · rw [hu] at h; cases h
      · exact h
    simp [hr]

/-- C1 at a lease that carries a username but no role. -/
theorem missing_attribute_no_call_witness :
    (roleLessLease.Secret.InternalData.lookup "username" = none ∨
      roleLessLease.Secret.InternalData.lookup "role" = none) ∧
    (secretCredsRenew strictBackend roleLessLease appWorld).outcome =
      .returned none (some (.errorf "could not find role with name: %q" [none])) ∧
    (secretCredsRevoke strictBackend roleLessLease appWorld).effects = [] :=
  ⟨Or.inr (by decide),
    (missing_attribute_no_call strictBackend roleLessLease appWorld (Or.inr (by decide))).1.1,
    (missing_attribute_no_call strictBackend roleLessLease appWorld (Or.inr (by decide))).2.2.1⟩

/-! ## Role resolution -/

/-- C2: for a lease with string `username` and `role`, when the role store
answers with no role the handlers return the role-not-found error of their
site, and when it fails with `e` they return exactly `e`; either way the
response is nil and the role lookup is the only call made. -/
theorem role_unresolved_no_database {σ : Type} (b : databaseBackend σ) (req : Request) (s : σ)
    (username roleName : String)
    (hu : req.Secret.InternalData.lookup "username" = some (.str username))
    (hr : req.Secret.InternalData.lookup "role" = some (.str roleName)) :
    (∀ s1, b.Role roleName s = (.ok none, s1) →
      (secretCredsRenew b req s).outcome = .returned none (some
          (.errorf "error during renew: could not find role with name %q"
            [some (.str roleName)])) ∧
        (secretCredsRenew b req s).effects = [.role roleName] ∧
        (secretCredsRenew b req s).state = s1 ∧
      (secretCredsRevoke b req s).outcome = .returned none (some
          (.errorf "error during revoke: could not find role with name %q"
            [some (.str roleName)])) ∧
        (secretCredsRevoke b req s).effects = [.role roleName] ∧
        (secretCredsRevoke b req s).state = s1) ∧
    (∀ e s1, b.Role roleName s = (.error e, s1) →
      (secretCredsRenew b req s).outcome = .returned none (some e) ∧
        (secretCredsRenew b req s).effects = [.role roleName] ∧
        (secretCredsRenew b req s).state = s1 ∧
      (secretCredsRevoke b req s).outcome = .returned none (some e) ∧
        (secretCredsRevoke b req s).effects = [.role roleName] ∧
        (secretCredsRevoke b req s).state = s1) := by
  constructor
  · intro s1 h
    simp [secretCredsRenew, secretCredsRevoke, hu, hr, assertString, h]
  · intro e s1 h
    simp [secretCredsRenew, secretCredsRevoke, hu, hr, assertString, h]

/-- C2 at a lease whose role has been deleted from storage. -/
theorem role_unresolved_no_database_witness :
    (staleLease.Secret.InternalData.lookup "username" = some (.str "v-old-abcd") ∧
      staleLease.Secret.InternalData.lookup "role" = some (.str "old-role") ∧
      strictBackend.Role "old-role" appWorld = (.ok none, appWorld)) ∧
    (secretCredsRevoke strictBackend staleLease appWorld).outcome = .returned none (some
      (.errorf "error during revoke: could not find role with name %q"
        [some (.str "old-role")])) ∧
    (secretCredsRevoke strictBackend staleLease appWorld).effects = [.role "old-role"] :=
  ⟨⟨by decide, by decide, by rfl⟩,
    ((role_unresolved_no_database strictBackend staleLease appWorld "v-old-abcd" "old-role"
      (by decide) (by decide)).1 appWorld (by rfl)).2.2.2.1,
    ((role_unresolved_no_database strictBackend staleLease appWorld "v-old-abcd" "old-role"
      (by decide) (by decide)).1 appWorld (by rfl)).2.2.2.2.1⟩

/-! ## Statement execution -/

/-- C3: in a Renew where the role, the lease extension and the connection all
resolve, a non-zero expiration of the response is pushed by exactly one
statement, `RenewUser(role.Statements, username, expiration)` on the resolved
connection, and when that call succeeds Renew returns the response unchanged
and leaves the world as the statement left it; with a zero expiration no
statement runs and Renew returns the response with no error. -/
theorem renew_pushes_expiration {σ : Type} (b : databaseBackend σ) (req : Request)
    (s s1 s2 s3 : σ) (username roleName : String) (role : roleEntry) (resp : Response)
    (db : Conn)
    (hu : req.Secret.InternalData.lookup "username" = some (.str username))
    (hr : req.Secret.InternalData.lookup "role" = some (.str roleName))
    (hrole : b.Role roleName s = (.ok (some role), s1))
    (hext : b.LeaseExtend role.DefaultTTL role.MaxTTL req s1 = (.ok resp, s2))
    (hconn : b.GetConnection role.DBName s2 = (.ok db, s3)) :
    (resp.Secret.ExpirationTime ≠ 0 →
      (secretCredsRenew b req s).effects.filter Effect.isStatement =
          [.renewUser db role.Statements username resp.Secret.ExpirationTime] ∧
        ((b.RenewUser db role.Statements username resp.Secret.ExpirationTime s3).1 = none →
          (secretCredsRenew b req s).outcome = .returned (some resp) none ∧
          (secretCredsRenew b req s).state =
            (b.RenewUser db role.Statements username resp.Secret.ExpirationTime s3).2)) ∧
    (resp.Secret.ExpirationTime = 0 →
      (secretCredsRenew b req s).effects.filter Effect.isStatement = [] ∧
        (secretCredsRenew b req s).outcome = .returned (some resp) none ∧
        (secretCredsRenew b req s).state = s3) := by
  constructor
  · intro hz
    cases hx : b.RenewUser db role.Statements username resp.Secret.ExpirationTime s3 with
    | mk e s4 =>
      cases e <;>
        simp [secretCredsRenew, hu, hr, assertString, stringOrZero, hrole, hext, hconn,
          Time.IsZero, hz, hx, Effect.isStatement]
  · intro hz
    simp [secretCredsRenew, hu, hr, assertString, stringOrZero, hrole, hext, hconn,
      Time.IsZero, hz, Effect.isStatement]

/-- C3 at the sample lease: the expiration pushed is the one returned. -/
theorem renew_pushes_expiration_witness :
    (appLease.Secret.InternalData.lookup "username" = some (.str "v-app-role-abcd") ∧
      appLease.Secret.InternalData.lookup "role" = some (.str "app-role")) ∧
    (secretCredsRenew strictBackend appLease appWorld).effects.filter Effect.isStatement =
      [.renewUser ⟨1⟩ appRole.Statements "v-app-role-abcd" 4600] :=
  ⟨⟨by decide, by decide⟩,
    ((renew_pushes_expiration strictBackend appLease appWorld appWorld appWorld appWorld
      "v-app-role-abcd" "app-role" appRole
      ⟨{ appLease.Secret with ExpireTime := 4600 }⟩ ⟨1⟩
      (by decide) (by decide) (by rfl) (by rfl) (by rfl)).1 (by decide)).1⟩

/-- C5: in a Revoke where the role and the connection resolve, exactly one
statement runs, `RevokeUser(role.Statements, username)` on the resolved
connection; Revoke returns without error exactly when that call does, and then
returns a nil response and leaves the world as the statement left it. -/
theorem revoke_executes_once {σ : Type} (b : databaseBackend σ) (req : Request)
    (s s1 s2 : σ) (username roleName : String) (role : roleEntry) (db : Conn)
    (hu : req.Secret.InternalData.lookup "username" = some (.str username))
    (hr : req.Secret.InternalData.lookup "role" = some (.str roleName))
    (hrole : b.Role roleName s = (.ok (some role), s1))
    (hconn : b.GetConnection role.DBName s1 = (.ok db, s2)) :
    (secretCredsRevoke b req s).effects.filter Effect.isStatement =
        [.revokeUser db role.Statements username] ∧
      ((∃ resp, (secretCredsRevoke b req s).outcome = .returned resp none) ↔
        (b.RevokeUser db role.Statements username s2).1 = none) ∧
      ((b.RevokeUser db role.Statements username s2).1 = none →
        (secretCredsRevoke b req s).outcome = .returned none none ∧
        (secretCredsRevoke b req s).state =
          (b.RevokeUser db role.Statements username s2).2) := by
  cases hx : b.RevokeUser db role.Statements username s2 with
  | mk e s3 =>
    cases e <;>
      simp [secretCredsRevoke, hu, hr, assertString, stringOrZero, hrole, hconn, hx,
        Effect.isStatement]

/-- C5 at the sample lease: the account is dropped by one statement. -/
theorem revoke_executes_once_witness :
    (appLease.Secret.InternalData.lookup "username" = some (.str "v-app-role-abcd") ∧
      appLease.Secret.InternalData.lookup "role" = some (.str "app-role")) ∧
    (secretCredsRevoke strictBackend appLease appWorld).effects.filter Effect.isStatement =
      [.revokeUser ⟨1⟩ appRole.Statements "v-app-role-abcd"] :=
  ⟨⟨by decide, by decide⟩,
    (revoke_executes_once strictBackend appLease appWorld appWorld appWorld
      "v-app-role-abcd" "app-role" appRole ⟨1⟩
      (by decide) (by decide) (by rfl) (by rfl)).1⟩

/-- C6: when the statement fails with `e`, the handler calls
`CloseIfShutdown` once, on the connection the statement ran on and with `e`,
right after the statement and before the lock is released; it runs no other
statement and returns a nil response with exactly `e`. -/
theorem statement_failure_invalidates {σ : Type} (b : databaseBackend σ) (req : Request)
    (s s1 : σ) (usernameRaw : Value) (roleName : String) (role : roleEntry) (db : Conn)
    (e : Err)
    (hu : req.Secret.InternalData.lookup "username" = some usernameRaw)
    (hr : req.Secret.InternalData.lookup "role" = some (.str roleName))
    (hrole : b.Role roleName s = (.ok (some role), s1)) :
    (∀ s2 s3 s4 resp,
      b.LeaseExtend role.DefaultTTL role.MaxTTL req s1 = (.ok resp, s2) →
      b.GetConnection role.DBName s2 = (.ok db, s3) →
      resp.Secret.ExpirationTime ≠ 0 →
      b.RenewUser db role.Statements (stringOrZero usernameRaw) resp.Secret.ExpirationTime s3 =
        (some e, s4) →
      (secretCredsRenew b req s).effects =
          [.role roleName, .leaseExtend role.DefaultTTL role.MaxTTL,
            .getConnection role.DBName (some db), .rlock db,
            .renewUser db role.Statements (stringOrZero usernameRaw) resp.Secret.ExpirationTime,
            .closeIfShutdown db e, .runlock db] ∧
        (secretCredsRenew b req s).outcome = .returned none (some e) ∧
        (secretCredsRenew b req s).state = b.CloseIfShutdown db e s4) ∧
    (∀ s2 s3,
      b.GetConnection role.DBName s1 = (.ok db, s2) →
      b.RevokeUser db role.Statements (stringOrZero usernameRaw) s2 = (some e, s3) →
      (secretCredsRevoke b req s).effects =
          [.role roleName, .getConnection role.DBName (some db), .rlock db,
            .revokeUser db role.Statements (stringOrZero usernameRaw),
            .closeIfShutdown db e, .runlock db] ∧
        (secretCredsRevoke b req s).outcome = .returned none (some e) ∧
        (secretCredsRevoke b req s).state = b.CloseIfShutdown db e s3) := by
  constructor
  · intro s2 s3 s4 resp hext hconn hz hx
    simp [secretCredsRenew, hu, hr, assertString, hrole, hext, hconn, Time.IsZero, hz, hx]
  · intro s2 s3 hconn hx
    simp [secretCredsRevoke, hu, hr, assertString, hrole, hconn, hx]

/-- C6 at a revocation of an account that is already gone. -/
theorem statement_failure_invalidates_witness :
    (appLease.Secret.InternalData.lookup "username" = some (.str "v-app-role-abcd") ∧
      appLease.Secret.InternalData.lookup "role" = some (.str "app-role")) ∧
    (secretCredsRevoke strictBackend appLease ⟨[], 1000⟩).effects =
      [.role "app-role", .getConnection "db" (some ⟨1⟩), .rlock ⟨1⟩,
        .revokeUser ⟨1⟩ appRole.Statements "v-app-role-abcd",
        .closeIfShutdown ⟨1⟩ (.other "user does not exist"), .runlock ⟨1⟩] :=
  ⟨⟨by decide, by decide⟩,
    ((statement_failure_invalidates strictBackend appLease ⟨[], 1000⟩ ⟨[], 1000⟩
      (.str "v-app-role-abcd") "app-role" appRole ⟨1⟩ (.other "user does not exist")
      (by decide) (by decide) (by rfl)).2 ⟨[], 1000⟩ ⟨[], 1000⟩ (by rfl) (by rfl)).1⟩

/-- C9: a `username` bound to a value that is not a string does not stop the
handlers: with a string `role` that resolves and a connection that resolves,
Revoke runs `RevokeUser(role.Statements, "")`, and Renew runs
`RenewUser(role.Statements, "", expiration)` when the expiration is non-zero;
the outcome is the one the statement gives. -/
theorem non_string_username_is_empty {σ : Type} (b : databaseBackend σ) (req : Request)
    (s s1 : σ) (usernameRaw : Value) (roleName : String) (role : roleEntry) (db : Conn)
    (hu : req.Secret.InternalData.lookup "username" = some usernameRaw)
    (hns : ∀ u, usernameRaw ≠ .str u)
    (hr : req.Secret.InternalData.lookup "role" = some (.str roleName))
    (hrole : b.Role roleName s = (.ok (some role), s1)) :
    (∀ s2, b.GetConnection role.DBName s1 = (.ok db, s2) →
      (secretCredsRevoke b req s).effects.filter Effect.isStatement =
          [.revokeUser db role.Statements ""] ∧
        ((b.RevokeUser db role.Statements "" s2).1 = none →
          (secretCredsRevoke b req s).outcome = .returned none none) ∧
        (∀ e, (b.RevokeUser db role.Statements "" s2).1 = some e →
          (secretCredsRevoke b req s).outcome = .returned none (some e))) ∧
    (∀ s2 s3 resp,
      b.LeaseExtend role.DefaultTTL role.MaxTTL req s1 = (.ok resp, s2) →
      b.GetConnection role.DBName s2 = (.ok db, s3) →
      resp.Secret.ExpirationTime ≠ 0 →
      (secretCredsRenew b req s).effects.filter Effect.isStatement =
          [.renewUser db role.Statements "" resp.Secret.ExpirationTime] ∧
        ((b.RenewUser db role.Statements "" resp.Secret.ExpirationTime s3).1 = none →
          (secretCredsRenew b req s).outcome = .returned (some resp) none) ∧
        (∀ e, (b.RenewUser db role.Statements "" resp.Secret.ExpirationTime s3).1 = some e →
          (secretCredsRenew b req s).outcome = .returned none (some e))) := by
  have hz : stringOrZero usernameRaw = "" := by
    cases usernameRaw with
    | str u => exact absurd rfl (hns u)
    | nil => rfl
    | bool _ => rfl
    | num _ => rfl
  constructor
  · intro s2 hconn
    cases hx : b.RevokeUser db role.Statements "" s2 with
    | mk e s3 =>
      cases e <;>
        simp [secretCredsRevoke, hu, hr, assertString, hz, hrole, hconn, hx,
          Effect.isStatement]
  · intro s2 s3 resp hext hconn hnz
    cases hx : b.RenewUser db role.Statements "" resp.Secret.ExpirationTime s3 with
    | mk e s4 =>
      cases e <;>
        simp [secretCredsRenew, hu, hr, assertString, hz, hrole, hext, hconn, Time.IsZero,
          hnz, hx, Effect.isStatement]

/-- C9 at a lease whose `username` is a number. -/
theorem non_string_username_is_empty_witness :
    (numberLease.Secret.InternalData.lookup "username" = some (.num 7) ∧
      numberLease.Secret.InternalData.lookup "role" = some (.str "app-role")) ∧
    (secretCredsRevoke strictBackend numberLease appWorld).effects.filter Effect.isStatement =
      [.revokeUser ⟨1⟩ appRole.Statements ""] :=
  ⟨⟨by decide, by decide⟩,
    ((non_string_username_is_empty strictBackend numberLease appWorld appWorld (.num 7)
      "app-role" appRole ⟨1⟩ (by decide) (by intro u h; cases h) (by decide) (by rfl)).1
      appWorld (by rfl)).1⟩

/-! ## Locking -/

/-- C7: every invocation of Renew and of Revoke, whatever its outcome, obeys
the shared-lock discipline: once the connection is resolved there is exactly
one `RLock` and one `RUnlock` on it, the `RUnlock` is the last effect, and
every statement and every `CloseIfShutdown` lies between them; without a
resolved connection there is no lock call.  The number of shared holders of
any connection is the same after the invocation as before it. -/
theorem lock_discipline {σ : Type} (b : databaseBackend σ) (req : Request) (s : σ) :
    (LockDiscipline (secretCredsRenew b req s).effects ∧
      ∀ c n, readers c (secretCredsRenew b req s).effects n = n) ∧
    (LockDiscipline (secretCredsRevoke b req s).effects ∧
      ∀ c n, readers c (secretCredsRevoke b req s).effects n = n) := by
  have hr : ∀ (c db : Conn) (n : Nat),
      (if db = c then (if db = c then n + 1 else n) - 1 else if db = c then n + 1 else n) = n := by
    intro c db n
    split <;> simp
  constructor
  · unfold secretCredsRenew
    dsimp only
    repeat' split
    all_goals first
      | (refine ⟨Or.inr ⟨?_, ?_⟩, ?_⟩ <;>
          (simp [Effect.isLock, Effect.isDatabase, readers]; done))
      | (refine ⟨Or.inl ⟨[_, _], _, _, [], rfl, ?_, ?_⟩, ?_⟩ <;>
          simp [Effect.isLock, Effect.isDatabase, readers, hr])
      | (refine ⟨Or.inl ⟨[_, _], _, _, [_], rfl, ?_, ?_⟩, ?_⟩ <;>
          simp [Effect.isLock, Effect.isDatabase, readers, hr])
      | (refine ⟨Or.inl ⟨[_, _], _, _, [_, _], rfl, ?_, ?_⟩, ?_⟩ <;>
          simp [Effect.isLock, Effect.isDatabase, readers, hr])
  · unfold secretCredsRevoke
    dsimp only
    repeat' split
    all_goals first
      | (refine ⟨Or.inr ⟨?_, ?_⟩, ?_⟩ <;>
          (simp [Effect.isLock, Effect.isDatabase, readers]; done))
      | (refine ⟨Or.inl ⟨[_], _, _, [_], rfl, ?_, ?_⟩, ?_⟩ <;>
          simp [Effect.isLock, Effect.isDatabase, readers, hr])
      | (refine ⟨Or.inl ⟨[_], _, _, [_, _], rfl, ?_, ?_⟩, ?_⟩ <;>
          simp [Effect.isLock, Effect.isDatabase, readers, hr])

/-! ## Expiration policy -/

/-- The earlier of `now + d` and `now + m` is `now + m` when `d > m`, and
`now + d` otherwise. -/
lemma min_add_if (now d m : Int) :
    min (now + d) (now + m) = if d > m then now + m else now + d := by
  split <;> omega

/-- The earlier of `now + r` and `now + m` is `now` plus the smaller of the
two durations. -/
lemma min_add_left (now r m : Int) : min (now + r) (now + m) = now + min r m := by
  omega

/-- C4: with the spec's lease-extension policy in place of `LeaseExtend`, a
Renew that returns a response without error resolved a role, called the policy
with `role.DefaultTTL` and `role.MaxTTL` in that order, and returns the
policy's response: its expiration is `now + DefaultTTL` (`now + MaxTTL` when
`DefaultTTL > MaxTTL`) when no extension is requested, and
`now + min(r, MaxTTL)` for a requested extension `r`, `now` being the clock
when the policy ran. -/
theorem renew_expiration_policy {σ : Type} (b : databaseBackend σ) (clock : σ → Time)
    (req : Request) (s : σ) (resp : Response)
    (h : (secretCredsRenew (withLeaseExtend b clock) req s).outcome =
      .returned (some resp) none) :
    ∃ roleName role s1,
      req.Secret.InternalData.lookup "role" = some (.str roleName) ∧
      b.Role roleName s = (.ok (some role), s1) ∧
      .leaseExtend role.DefaultTTL role.MaxTTL ∈
        (secretCredsRenew (withLeaseExtend b clock) req s).effects ∧
      LeaseExtend (clock s1) role.DefaultTTL role.MaxTTL req = .ok resp ∧
      (req.Secret.Increment = none →
        resp.Secret.ExpirationTime =
          if role.DefaultTTL > role.MaxTTL then clock s1 + role.MaxTTL
          else clock s1 + role.DefaultTTL) ∧
      (∀ r, req.Secret.Increment = some r →
        resp.Secret.ExpirationTime = clock s1 + min r role.MaxTTL) := by
  have hpol : ∀ (role : roleEntry) (now : Time),
      (req.Secret.Increment = none →
        (extend now req.Secret.Increment role.DefaultTTL role.MaxTTL) =
          if role.DefaultTTL > role.MaxTTL then now + role.MaxTTL
          else now + role.DefaultTTL) ∧
      (∀ r, req.Secret.Increment = some r →
        (extend now req.Secret.Increment role.DefaultTTL role.MaxTTL) =
          now + min r role.MaxTTL) := by
    intro role now
    constructor
    · intro hn
      rw [hn]
      exact min_add_if now role.DefaultTTL role.MaxTTL
    · intro r hn
      rw [hn]
      exact min_add_left now r role.MaxTTL
  cases hu : req.Secret.InternalData.lookup "username" with
  | none => simp [secretCredsRenew, hu] at h
  | some u =>
    cases hr : req.Secret.InternalData.lookup "role" with
    | none => simp [secretCredsRenew, hu, hr] at h
    | some rv =>
      cases rv with
      | nil => simp [secretCredsRenew, hu, hr, assertString] at h
      | bool _ => simp [secretCredsRenew, hu, hr, assertString] at h
      | num _ => simp [secretCredsRenew, hu, hr, assertString] at h
      | str rn =>
        cases hrole : b.Role rn s with
        | mk r s1 =>
          have hrole2 : (withLeaseExtend b clock).Role rn s = (r, s1) := hrole
          cases r with
          | error e => simp [secretCredsRenew, hu, hr, assertString, hrole2] at h
          | ok o =>
            cases o with
            | none => simp [secretCredsRenew, hu, hr, assertString, hrole2] at h
            | some role =>
              have hext : (withLeaseExtend b clock).LeaseExtend role.DefaultTTL role.MaxTTL
                  req s1 = (LeaseExtend (clock s1) role.DefaultTTL role.MaxTTL req, s1) := rfl
              have key : LeaseExtend (clock s1) role.DefaultTTL role.MaxTTL req = .ok resp ∧
                  .leaseExtend role.DefaultTTL role.MaxTTL ∈
                    (secretCredsRenew (withLeaseExtend b clock) req s).effects := by
                cases hconn : (withLeaseExtend b clock).GetConnection role.DBName s1 with
                | mk c s3 =>
                  cases c with
                  | error e =>
                    simp [secretCredsRenew, hu, hr, assertString, hrole2, hext, LeaseExtend,
                      hconn] at h
                  | ok db =>
                    by_cases hz : extend (clock s1) req.Secret.Increment role.DefaultTTL
                        role.MaxTTL = 0
                    · simp [secretCredsRenew, hu, hr, assertString, hrole2, hext, LeaseExtend,
                        hconn, Secret.ExpirationTime, Time.IsZero, hz] at h ⊢
                      exact h
                    · cases hx : (withLeaseExtend b clock).RenewUser db role.Statements
                          (stringOrZero u)
                          (extend (clock s1) req.Secret.Increment role.DefaultTTL role.MaxTTL)
                          s3 with
                      | mk e s4 =>
                        cases e with
                        | some err =>
                          simp [secretCredsRenew, hu, hr, assertString, hrole2, hext,
                            LeaseExtend, hconn, Secret.ExpirationTime, Time.IsZero, hz, hx] at h
                        | none =>
                          simp [secretCredsRenew, hu, hr, assertString, hrole2, hext,
                            LeaseExtend, hconn, Secret.ExpirationTime, Time.IsZero, hz, hx]
                            at h ⊢
                          exact h
              have hexp : resp.Secret.ExpirationTime =
                  extend (clock s1) req.Secret.Increment role.DefaultTTL role.MaxTTL := by
                have h1 := key.1
                simp only [LeaseExtend, Except.ok.injEq] at h1
                rw [← h1]
                rfl
              refine ⟨rn, role, s1, rfl, hrole, key.2, key.1, ?_⟩
              rw [hexp]
              exact hpol role (clock s1)

/-- C4 at the sample lease: one hour default, one day maximum, no request. -/
theorem renew_expiration_policy_witness :
    (secretCredsRenew (withLeaseExtend strictBackend World.now) appLease appWorld).outcome =
      .returned (some ⟨{ appLease.Secret with ExpireTime := 4600 }⟩) none ∧
    ∃ roleName role s1,
      appLease.Secret.InternalData.lookup "role" = some (.str roleName) ∧
      strictBackend.Role roleName appWorld = (.ok (some role), s1) ∧
      .leaseExtend role.DefaultTTL role.MaxTTL ∈
        (secretCredsRenew (withLeaseExtend strictBackend World.now) appLease appWorld).effects ∧
      LeaseExtend (World.now s1) role.DefaultTTL role.MaxTTL appLease =
        .ok ⟨{ appLease.Secret with ExpireTime := 4600 }⟩ ∧
      (appLease.Secret.Increment = none →
        (4600 : Time) =
          if role.DefaultTTL > role.MaxTTL then World.now s1 + role.MaxTTL
          else World.now s1 + role.DefaultTTL) ∧
      (∀ r, appLease.Secret.Increment = some r →
        (4600 : Time) = World.now s1 + min r role.MaxTTL) :=
  ⟨by decide,
    renew_expiration_policy strictBackend World.now appLease appWorld
      ⟨{ appLease.Secret with ExpireTime := 4600 }⟩ (by decide)⟩

/-! ## Repeated revocation -/

/-- C8, as stated, fails: on a backend whose revocation statement rejects an
account that does not exist, the first Revoke of the sample lease succeeds and
the second, run on the world the first one left, returns the statement's
error. -/
theorem revoke_twice_strict_fails :
    (secretCredsRevoke strictBackend appLease appWorld).outcome = .returned none none ∧
    (secretCredsRevoke strictBackend appLease
      (secretCredsRevoke strictBackend appLease appWorld).state).outcome =
      .returned none (some (.other "user does not exist")) := by
  decide

/-- C8, amended: take a Revoke whose role and connection resolve and that
succeeds.  If, in the world it left, the role lookup answers with the same
role and the connection lookup with the same connection, and `RevokeUser`
accepts the account it has already revoked, then a second Revoke of the same
lease succeeds as well.  Nothing is assumed about how the lookups or the
statement change the world. -/
theorem revoke_twice_when_tolerated {σ : Type} (b : databaseBackend σ) (req : Request)
    (s s1 s2 t1 t2 : σ) (usernameRaw : Value) (roleName : String) (role : roleEntry)
    (db : Conn)
    (hu : req.Secret.InternalData.lookup "username" = some usernameRaw)
    (hr : req.Secret.InternalData.lookup "role" = some (.str roleName))
    (hrole : b.Role roleName s = (.ok (some role), s1))
    (hconn : b.GetConnection role.DBName s1 = (.ok db, s2))
    (h1 : (secretCredsRevoke b req s).outcome = .returned none none)
    (hrole2 : b.Role roleName (secretCredsRevoke b req s).state = (.ok (some role), t1))
    (hconn2 : b.GetConnection role.DBName t1 = (.ok db, t2))
    (htol : (b.RevokeUser db role.Statements (stringOrZero usernameRaw) s2).1 = none →
      (b.RevokeUser db role.Statements (stringOrZero usernameRaw) t2).1 = none) :
    (secretCredsRevoke b req (secretCredsRevoke b req s).state).outcome =
      .returned none none := by
  cases hx : b.RevokeUser db role.Statements (stringOrZero usernameRaw) s2 with
  | mk e s3 =>
    cases e with
    | some err => simp [secretCredsRevoke, hu, hr, assertString, hrole, hconn, hx] at h1
    | none =>
      have hstate : (secretCredsRevoke b req s).state = s3 := by
        simp [secretCredsRevoke, hu, hr, assertString, hrole, hconn, hx]
      rw [hstate] at hrole2 ⊢
      have hsecond := htol (by rw [hx])
      cases hx2 : b.RevokeUser db role.Statements (stringOrZero usernameRaw) t2 with
      | mk e2 t3 =>
        rw [hx2] at hsecond
        simp only at hsecond
        subst hsecond
        simp [secretCredsRevoke, hu, hr, assertString, hrole2, hconn2, hx2]

/-- C8, amended, at a backend whose registry opens the connection during the
first Revoke and whose revocation statement accepts an account that is already
gone. -/
theorem revoke_twice_when_tolerated_witness :
    (lazyBackend.GetConnection "db" ⟨["v-app-role-abcd"], []⟩ =
        (.ok ⟨1⟩, ⟨["v-app-role-abcd"], ["db"]⟩) ∧
      (secretCredsRevoke lazyBackend appLease ⟨["v-app-role-abcd"], []⟩).outcome =
        .returned none none ∧
      (secretCredsRevoke lazyBackend appLease ⟨["v-app-role-abcd"], []⟩).state =
        ⟨[], ["db"]⟩) ∧
    (secretCredsRevoke lazyBackend appLease
      (secretCredsRevoke lazyBackend appLease ⟨["v-app-role-abcd"], []⟩).state).outcome =
      .returned none none :=
  ⟨⟨by rfl, by decide, by decide⟩,
    revoke_twice_when_tolerated lazyBackend appLease
      ⟨["v-app-role-abcd"], []⟩ ⟨["v-app-role-abcd"], []⟩ ⟨["v-app-role-abcd"], ["db"]⟩
      ⟨[], ["db"]⟩ ⟨[], ["db"]⟩
      (.str "v-app-role-abcd") "app-role" appRole ⟨1⟩
      (by decide) (by decide) (by rfl) (by rfl) (by decide) (by rfl) (by rfl)
      (fun _ => by decide)⟩

/-! ## Type assertions -/

/-- C10, as stated, fails: a lease whose `role` is a number and that has no
`username` does not panic; both handlers return the missing-username error. -/
theorem non_string_role_without_username :
    namelessLease.Secret.InternalData.lookup "role" = some (.num 5) ∧
    (secretCredsRenew strictBackend namelessLease appWorld).outcome =
      .returned none (some (.errorf "secret is missing username internal data" [])) ∧
    (secretCredsRevoke strictBackend namelessLease appWorld).outcome =
      .returned none (some (.errorf "secret is missing username internal data" [])) := by
  decide

/-- C10, amended: for a lease with `username` present, a string `role` never
makes Renew or Revoke panic, and a `role` present with a value that is not a
string makes both panic before any call is made. -/
theorem role_assertion_safety {σ : Type} (b : databaseBackend σ) (req : Request) (s : σ)
    (usernameRaw : Value)
    (hu : req.Secret.InternalData.lookup "username" = some usernameRaw) :
    (∀ roleName, req.Secret.InternalData.lookup "role" = some (.str roleName) →
      (secretCredsRenew b req s).outcome ≠ .panicked ∧
      (secretCredsRevoke b req s).outcome ≠ .panicked) ∧
    (∀ roleNameRaw, req.Secret.InternalData.lookup "role" = some roleNameRaw →
      (∀ roleName, roleNameRaw ≠ .str roleName) →
      ((secretCredsRenew b req s).outcome = .panicked ∧
        (secretCredsRenew b req s).effects = [] ∧ (secretCredsRenew b req s).state = s) ∧
      ((secretCredsRevoke b req s).outcome = .panicked ∧
        (secretCredsRevoke b req s).effects = [] ∧ (secretCredsRevoke b req s).state = s)) := by
  constructor
  · intro roleName hr
    constructor
    · simp only [secretCredsRenew, hu, hr, assertString]
      repeat' split
      all_goals simp
    · simp only [secretCredsRevoke, hu, hr, assertString]
      repeat' split
      all_goals simp
  · intro roleNameRaw hr hns
    have ha : assertString roleNameRaw = none := by
      cases roleNameRaw with
      | str r => exact absurd rfl (hns r)
      | nil => rfl
      | bool _ => rfl
      | num _ => rfl
    simp [secretCredsRenew, secretCredsRevoke, hu, hr, ha]

/-- C10 at a lease with a `username` whose `role` is a number. -/
theorem role_assertion_safety_witness :
    numberRoleLease.Secret.InternalData.lookup "username" = some (.str "u") ∧
    numberRoleLease.Secret.InternalData.lookup "role" = some (.num 5) ∧
    (secretCredsRenew strictBackend numberRoleLease appWorld).outcome = .panicked ∧
    (secretCredsRevoke strictBackend numberRoleLease appWorld).outcome = .panicked :=
  ⟨by decide, by decide,
    ((role_assertion_safety strictBackend numberRoleLease appWorld (.str "u")
      (by decide)).2 (.num 5) (by decide) (by intro r h; cases h)).1.1,
    ((role_assertion_safety strictBackend numberRoleLease appWorld (.str "u")
      (by decide)).2 (.num 5) (by decide) (by intro r h; cases h)).2.1⟩

end Database
